import Mathlib

/-!
Verification development for the game-data builder pipeline: a shallow
embedding of its cell-value coercer, column-metadata parser, table readers,
table transformer (sheet merge), integrity validator, format encoders and
orchestrator decisions (fast-mode staleness check, converter creation and
dispatch), with theorems settling the specification's claims about them.

Go conventions are modelled as follows: a dynamically typed cell value
(`interface{}`) is the tagged union `GoValue`, with `GoValue.vnil` for the
nil interface; a Go `(T, error)` pair is a Lean pair whose second component
is `true` exactly when the Go error is nil (or an `Except` when only the
error path matters); Go maps that the code only ever looks up are
association lists with Go's last-write-wins lookup; Go maps that the code
iterates (a table's metadata) are association lists whose list order stands
for the iteration order Go chose, which Go randomises.  Go `float64`
values are carried as exact rationals: no claim of this development
depends on float rounding or formatting.
-/

namespace GameDataBuilder

/-- A Go `interface{}` cell value.  The readers of this program only ever
store `int`, `float64`, `bool`, `string` or the nil interface, so those are
the representations modelled: `vint` is Go `int`, `vfloat` is Go `float64`. -/
inductive GoValue where
  | vnil
  | vint (n : Int)
  | vfloat (q : Rat)
  | vbool (b : Bool)
  | vstr (s : String)
deriving DecidableEq, Repr

/-- A row: Go `map[string]interface{}`, as an association list with unique
keys (the readers insert each column name once). -/
abbrev GoRow := List (String × GoValue)

/-- Go map lookup on a row: `val, exists := row[k]`. -/
def rowLookup (row : GoRow) (k : String) : Option GoValue :=
  List.lookup k row

/-- Go map insert on a row: overwrite the key if present, else add it. -/
def rowInsert (row : GoRow) (k : String) (v : GoValue) : GoRow :=
  if (List.lookup k row).isSome then
    row.map (fun p => if p.1 = k then (k, v) else p)
  else
    row ++ [(k, v)]

/-- model.RefInfo: a foreign-key reference (target sheet and column). -/
structure RefInfo where
  Sheet : String
  Column : String
deriving DecidableEq, Repr

/-- model.ColumnInfo.  The Go field `Type` is spelled `Typ` (Lean reserves
`Type`); zero values of the Go struct are `Required := false`,
`Default := .vnil`, `Options := []`, `Ref := none`. -/
structure ColumnInfo where
  Name : String
  Typ : String
  Comment : String
  Required : Bool
  Default : GoValue
  Options : List String
  Ref : Option RefInfo
deriving DecidableEq, Repr

/-- model.DataSheet.  `Meta` is a Go map; its list order models the
iteration order Go uses when the encoders range over it. -/
structure DataSheet where
  Name : String
  Columns : List ColumnInfo
  Rows : List GoRow
  Meta : List (String × GoValue)
deriving DecidableEq, Repr

/-- model.ErrorInfo: `Row` is 0 (the Go zero value) for table-level errors. -/
structure ErrorInfo where
  Sheet : String
  Row : Nat
  Column : String
  Msg : String
deriving DecidableEq, Repr

/-- model.ConvertResult.  `Content` is the Go byte slice, as the string the
converter built it from. -/
structure ConvertResult where
  FileName : String
  Content : String
  Format : String
deriving DecidableEq, Repr

/-! ## Cell value coercer (Go strconv and the two convertValue variants) -/

/-- ASCII lowercasing of one character (Go `strings.ToLower` lowercases
full Unicode; every tag and literal this pipeline compares after
lowercasing is ASCII, so the ASCII mapping is the faithful part). -/
def goCharToLower (c : Char) : Char :=
  if 65 ≤ c.toNat ∧ c.toNat ≤ 90 then Char.ofNat (c.toNat + 32) else c

/-- Go `strings.ToLower` restricted to ASCII (see `goCharToLower`). -/
def goToLower (s : String) : String :=
  ⟨s.data.map goCharToLower⟩

/-- Go `strconv.ParseBool`: exactly twelve accepted literals, `(value, ok)`
with `ok = false` standing for a non-nil syntax error (Go then returns the
zero value `false`). -/
def parseBool (str : String) : Bool × Bool :=
  if str = "1" ∨ str = "t" ∨ str = "T" ∨ str = "true" ∨ str = "TRUE" ∨ str = "True" then
    (true, true)
  else if str = "0" ∨ str = "f" ∨ str = "F" ∨ str = "false" ∨ str = "FALSE" ∨ str = "False" then
    (false, true)
  else
    (false, false)

/-- The value of a non-empty run of decimal digits, `none` if empty or any
character is not a digit. -/
def decDigits? (cs : List Char) : Option Nat :=
  if cs = [] then none
  else
    cs.foldl
      (fun acc c =>
        match acc with
        | none => none
        | some n => if c.isDigit then some (n * 10 + (c.toNat - 48)) else none)
      (some 0)

/-- Go `strconv.Atoi` (= ParseInt(s, 10, 0) on a 64-bit platform): optional
sign then decimal digits; on a syntax error Go returns `(0, err)`, on a
range error the clamped extreme with an error; `(value, ok)`. -/
def atoi (s : String) : Int × Bool :=
  let cs := s.data
  let signAndDigits : Bool × List Char :=
    match cs with
    | '+' :: t => (false, t)
    | '-' :: t => (true, t)
    | t => (false, t)
  match decDigits? signAndDigits.2 with
  | none => (0, false)
  | some n =>
    let v : Int := if signAndDigits.1 then -(n : Int) else (n : Int)
    if v < -(2 ^ 63) then (-(2 ^ 63), false)
    else if (2 ^ 63 - 1 : Int) < v then ((2 ^ 63 - 1 : Int), false)
    else (v, true)

/-- The value of a (possibly empty) run of decimal digits. -/
def natFromDigits (cs : List Char) : Nat :=
  cs.foldl (fun acc c => acc * 10 + (c.toNat - 48)) 0

/-- Go `strconv.ParseFloat(value, 64)` on the decimal forms
`[+-]digits[.digits][(e|E)[+-]digits]` (also `.digits` and `digits.`); the
value is kept as an exact rational rather than the nearest float64, and the
hex-float, inf/nan and grouped-underscore forms are not modelled — no claim
of this development depends on a floating-point value.  On failure Go
returns `(0, err)`; here `(0, false)`. -/
def parseFloatGo (s : String) : Rat × Bool :=
  let cs := s.data
  let signAndRest : Bool × List Char :=
    match cs with
    | '+' :: t => (false, t)
    | '-' :: t => (true, t)
    | t => (false, t)
  let neg := signAndRest.1
  let cs1 := signAndRest.2
  let mant := cs1.takeWhile (fun c => c != 'e' && c != 'E')
  let expPart := cs1.drop mant.length
  let intDs := mant.takeWhile (fun c => c != '.')
  let fracTail := mant.drop intDs.length
  let fracDs := match fracTail with
    | [] => []
    | _ :: t => t
  if ¬ intDs.all Char.isDigit ∨ ¬ fracDs.all Char.isDigit ∨ (intDs = [] ∧ fracDs = []) then
    (0, false)
  else
    let fracLen := fracDs.length
    let mantNum : Nat := natFromDigits intDs * Nat.pow 10 fracLen + natFromDigits fracDs
    match expPart with
    | [] =>
      let v := mkRat (mantNum : Int) (Nat.pow 10 fracLen)
      (if neg then -v else v, true)
    | _ :: et =>
      let esignAndDigits : Bool × List Char :=
        match et with
        | '+' :: t => (false, t)
        | '-' :: t => (true, t)
        | t => (false, t)
      if esignAndDigits.2 = [] ∨ ¬ esignAndDigits.2.all Char.isDigit then (0, false)
      else
        let eAbs := natFromDigits esignAndDigits.2
        let v :=
          if esignAndDigits.1 then mkRat (mantNum : Int) (Nat.pow 10 fracLen * Nat.pow 10 eAbs)
          else mkRat ((mantNum * Nat.pow 10 eAbs : Nat) : Int) (Nat.pow 10 fracLen)
        (if neg then -v else v, true)

/-- CSVReader.convertValue: the type switch of the delimited-text reader;
note the `bool` branch is Go `strconv.ParseBool`, which can fail. -/
def csvConvertValue (value dataType : String) : GoValue × Bool :=
  match dataType with
  | "int" | "integer" => ((.vint (atoi value).1), (atoi value).2)
  | "float" | "double" | "number" => ((.vfloat (parseFloatGo value).1), (parseFloatGo value).2)
  | "bool" | "boolean" => ((.vbool (parseBool value).1), (parseBool value).2)
  | "string" => (.vstr value, true)
  | _ => (.vstr value, true)

/-- ExcelReader.convertValue: the spreadsheet variant lowercases the type
tag, and its boolean branch recognises "true"/"1"/"yes" case-insensitively
and never fails. -/
def excelConvertValue (value dataType : String) : GoValue × Bool :=
  match goToLower dataType with
  | "int" | "integer" => ((.vint (atoi value).1), (atoi value).2)
  | "float" | "double" | "number" => ((.vfloat (parseFloatGo value).1), (parseFloatGo value).2)
  | "bool" | "boolean" =>
    let v := goToLower value
    if v = "true" ∨ v = "1" ∨ v = "yes" then (.vbool true, true) else (.vbool false, true)
  | "string" => (.vstr value, true)
  | _ => (.vstr value, true)

/-! ## String helpers (Go strings package, on character lists so that every
definition evaluates by kernel reduction) -/

/-- Split on a one-character separator (all separators this program passes
to Go `strings.Split` are one character: `|`, `,`, `.`, `/`). -/
def splitOnCharAux (sep : Char) : List Char → List Char → List (List Char)
  | [], acc => [acc.reverse]
  | c :: rest, acc =>
    if c = sep then acc.reverse :: splitOnCharAux sep rest []
    else splitOnCharAux sep rest (c :: acc)

/-- Go `strings.Split(s, sep)` for a one-character separator. -/
def goSplit (s : String) (sep : Char) : List String :=
  (splitOnCharAux sep s.data []).map (fun cs => ⟨cs⟩)

/-- Go `strings.HasPrefix`. -/
def goStartsWith (s p : String) : Bool :=
  p.data.isPrefixOf s.data

/-- Go `strings.TrimPrefix`. -/
def goTrimPrefixStr (s p : String) : String :=
  if goStartsWith s p then ⟨s.data.drop p.data.length⟩ else s

/-- Go `strings.TrimSuffix`. -/
def goTrimSuffixStr (s p : String) : String :=
  if p.data.isSuffixOf s.data then ⟨s.data.take (s.data.length - p.data.length)⟩ else s

/-- ASCII whitespace (Go `strings.TrimSpace` also trims rarer Unicode
spaces; none occur in the directive literals any claim touches). -/
def isSpaceGo (c : Char) : Bool :=
  c == ' ' || c == '\t' || c == '\n' || c == '\r' || c.toNat == 11 || c.toNat == 12

/-- Go `strings.TrimSpace` (ASCII part, see `isSpaceGo`). -/
def goTrim (s : String) : String :=
  ⟨((s.data.dropWhile isSpaceGo).reverse.dropWhile isSpaceGo).reverse⟩

/-! ## Column metadata parser -/

/-- parseCommentMetadata: the Go code repeats this body verbatim in
CSVReader and ExcelReader, differing only in which convertValue `conv` it
calls.  Directives (pipe-separated, trimmed, later wins): `必填` required,
`选填` optional, `默认:` default — note `val, _ := r.convertValue(...)`
swallows the coercion error and stores whatever value convertValue
returned — `选项:` options, `引用:` foreign key (only if `<sheet>.<column>`
splits in exactly two). -/
def parseCommentMetadataWith (conv : String → String → GoValue × Bool)
    (col : ColumnInfo) (comment : String) : ColumnInfo :=
  (goSplit comment '|').foldl
    (fun col part =>
      let part := goTrim part
      if goStartsWith part "必填" then { col with Required := true }
      else if goStartsWith part "选填" then { col with Required := false }
      else if goStartsWith part "默认:" then
        { col with Default := (conv (goTrimPrefixStr part "默认:") col.Typ).1 }
      else if goStartsWith part "选项:" then
        { col with Options := goSplit (goTrimPrefixStr part "选项:") ',' }
      else if goStartsWith part "引用:" then
        match goSplit (goTrimPrefixStr part "引用:") '.' with
        | [a, b] => { col with Ref := some { Sheet := a, Column := b } }
        | _ => col
      else col)
    col

/-- CSVReader.parseCommentMetadata. -/
def csvParseCommentMetadata (col : ColumnInfo) (comment : String) : ColumnInfo :=
  parseCommentMetadataWith csvConvertValue col comment

/-- ExcelReader.parseCommentMetadata. -/
def excelParseCommentMetadata (col : ColumnInfo) (comment : String) : ColumnInfo :=
  parseCommentMetadataWith excelConvertValue col comment

/-! ## Table readers.  File opening and low-level decoding (os.Open,
encoding/csv, excelize) are I/O collaborators: the readers are modelled
from the row matrix those collaborators hand back. -/

/-- The column-parsing loop over the three header rows, shared shape of
both readers (`parseMeta` is the reader's parseCommentMetadata).
`getD i ""` models the indexing `typeRow[i]` / `commentRow[i]`: exact for
the CSV reader (encoding/csv guarantees rectangular records), while the
Excel reader would panic with index-out-of-range on a ragged header block
(excelize's GetRows trims trailing empty cells) where this model yields
"" — a divergence no theorem of this development exercises. -/
def parseColumns (parseMeta : ColumnInfo → String → ColumnInfo)
    (headerRow typeRow commentRow : List String) : List ColumnInfo :=
  headerRow.enum.filterMap (fun p =>
    if p.2 = "" then none
    else
      let colInfo : ColumnInfo :=
        { Name := p.2, Typ := typeRow.getD p.1 "", Comment := commentRow.getD p.1 "",
          Required := true, Default := .vnil, Options := [], Ref := none }
      some (parseMeta colInfo (commentRow.getD p.1 "")))

/-- One data row of the CSV reader: a missing or empty cell resolves to the
column's Default, a present cell is coerced and a coercion failure aborts
with the raw strconv error (its text is not load-bearing here). -/
def csvParseRow (columns : List ColumnInfo) (line : List String) : Except String GoRow :=
  columns.enum.foldlM
    (fun rowData p =>
      if line.length ≤ p.1 then .ok (rowInsert rowData p.2.Name p.2.Default)
      else
        let value := line.getD p.1 ""
        if value = "" then .ok (rowInsert rowData p.2.Name p.2.Default)
        else
          let r := csvConvertValue value p.2.Typ
          if r.2 then .ok (rowInsert rowData p.2.Name r.1)
          else .error ("strconv: cannot parse " ++ value))
    []

/-- The CSV reader's data-row loop (rows from line index 3 on; a row with
no cells or an empty first cell is skipped). -/
def csvParseRows (columns : List ColumnInfo) : List (List String) → Except String (List GoRow)
  | [] => .ok []
  | line :: rest =>
    if line.length = 0 ∨ line.headD "" = "" then csvParseRows columns rest
    else do
      let rowData ← csvParseRow columns line
      let others ← csvParseRows columns rest
      .ok (rowData :: others)

/-- The CSV reader's table name: last path component, then TrimSuffix
".csv" then ".CSV". -/
def csvTableName (filePath : String) : String :=
  let parts := goSplit filePath '/'
  goTrimSuffixStr (goTrimSuffixStr (parts.getLastD "") ".csv") ".CSV"

/-- CSVReader.ReadSheet on the line matrix csv.ReadAll produced:
`.ok none` — Go `(nil, nil)` — when there are fewer than three lines. -/
def csvReadSheet (filePath : String) (allLines : List (List String)) :
    Except String (Option DataSheet) :=
  if allLines.length < 3 then .ok none
  else
    let columns := parseColumns csvParseCommentMetadata
      (allLines.getD 0 []) (allLines.getD 1 []) (allLines.getD 2 [])
    match csvParseRows columns (allLines.drop 3) with
    | .error e => .error e
    | .ok rows =>
      .ok (some { Name := csvTableName filePath, Columns := columns, Rows := rows, Meta := [] })

/-- CSVReader.ReadAll: wraps ReadSheet's result in a one-element slice with
no nil check — a short file therefore yields `[none]`, a list holding a nil
sheet. -/
def csvReadAll (filePath : String) (allLines : List (List String)) :
    Except String (List (Option DataSheet)) :=
  match csvReadSheet filePath allLines with
  | .error e => .error e
  | .ok sheet => .ok [sheet]

/-- One data row of the Excel reader (`rowIndex` is the 0-based index in
the sheet, used in the located error message). -/
def excelParseRow (sheetName : String) (rowIndex : Nat) (columns : List ColumnInfo)
    (row : List String) : Except String GoRow :=
  columns.enum.foldlM
    (fun rowData p =>
      let cellValue := row.getD p.1 ""
      if cellValue = "" then .ok (rowInsert rowData p.2.Name p.2.Default)
      else
        let r := excelConvertValue cellValue p.2.Typ
        if r.2 then .ok (rowInsert rowData p.2.Name r.1)
        else .error ("sheet " ++ sheetName ++ ", row " ++ toString (rowIndex + 1) ++
          ", column " ++ p.2.Name ++ ": cannot parse " ++ cellValue))
    []

/-- The Excel reader's data-row loop from absolute row index `rowIndex`. -/
def excelParseRows (sheetName : String) (columns : List ColumnInfo) :
    Nat → List (List String) → Except String (List GoRow)
  | _, [] => .ok []
  | rowIndex, row :: rest =>
    if row.length = 0 ∨ row.headD "" = "" then excelParseRows sheetName columns (rowIndex + 1) rest
    else do
      let rowData ← excelParseRow sheetName rowIndex columns row
      let others ← excelParseRows sheetName columns (rowIndex + 1) rest
      .ok (rowData :: others)

/-- ExcelReader.readSheet on the row matrix excelize's GetRows produced:
`.ok none` when there are fewer than three rows. -/
def excelReadSheet (sheetName : String) (rows : List (List String)) :
    Except String (Option DataSheet) :=
  if rows.length < 3 then .ok none
  else
    let columns := parseColumns excelParseCommentMetadata
      (rows.getD 0 []) (rows.getD 1 []) (rows.getD 2 [])
    match excelParseRows sheetName columns 3 (rows.drop 3) with
    | .error e => .error e
    | .ok dataRows =>
      .ok (some { Name := sheetName, Columns := columns, Rows := dataRows, Meta := [] })

/-- ExcelReader.ReadAll over the workbook's sheets (each visible sheet's
name with its GetRows matrix): skips names starting with "_", and appends
only the sheets readSheet returned non-nil. -/
def excelReadAll (sheets : List (String × List (List String))) :
    Except String (List DataSheet) :=
  sheets.foldlM
    (fun acc p =>
      if goStartsWith p.1 "_" then .ok acc
      else
        match excelReadSheet p.1 p.2 with
        | .error e => .error e
        | .ok none => .ok acc
        | .ok (some sheet) => .ok (acc ++ [sheet]))
    []

/-! ## Integrity validator (DefaultValidator) -/

/-- Go `reflect.TypeOf(value).String()` on the representations this
pipeline creates (the guard `val != nil` keeps nil away from it). -/
def typeNameOf : GoValue → String
  | .vnil => "<nil>"
  | .vint _ => "int"
  | .vfloat _ => "float64"
  | .vbool _ => "bool"
  | .vstr _ => "string"

/-- DefaultValidator.validateDataType: the reflect type-name switch.  The
readers only ever produce `int` and `float64` numerics, so the `int32`,
`int64` and `float32` alternatives of the source are compared against but
never match. -/
def validateDataType (value : GoValue) (expectedType : String) : Bool :=
  let valType := typeNameOf value
  match expectedType with
  | "int" | "integer" =>
    valType == "int" || valType == "int32" || valType == "int64" || valType == "float64"
  | "float" | "double" | "number" => valType == "float32" || valType == "float64"
  | "bool" | "boolean" => valType == "bool"
  | "string" => valType == "string"
  | _ => true

/-- fmt `%v` of a cell value (only message text; values this pipeline
prints in messages are never inspected by a claim, and a float's rendering
is represented by its exact rational's). -/
def goValueVerb : GoValue → String
  | .vnil => "<nil>"
  | .vint n => toString n
  | .vfloat q => toString q
  | .vbool b => if b then "true" else "false"
  | .vstr s => s

/-- fmt `%v` of the options slice. -/
def optionsVerb (options : List String) : String :=
  "[" ++ String.intercalate " " options ++ "]"

/-- Go `!exists || row[name] == nil || row[name] == ""` (an interface
compares equal to `""` only when it holds that string). -/
def emptyValueAt (row : GoRow) (name : String) : Bool :=
  match rowLookup row name with
  | none => true
  | some .vnil => true
  | some (.vstr "") => true
  | some _ => false

/-- The three checks Validate appends for one column of one row, in source
order: required, data type, enumeration. -/
def validateCell (sheetName : String) (rowIndex : Nat) (row : GoRow)
    (col : ColumnInfo) : List ErrorInfo :=
  let requiredErrs :=
    if col.Required ∧ emptyValueAt row col.Name then
      [{ Sheet := sheetName, Row := rowIndex + 4, Column := col.Name,
         Msg := "必填字段不能为空" : ErrorInfo }]
    else []
  let typeErrs :=
    match rowLookup row col.Name with
    | some val =>
      if val ≠ .vnil ∧ val ≠ .vstr "" ∧ ¬ validateDataType val col.Typ then
        [{ Sheet := sheetName, Row := rowIndex + 4, Column := col.Name,
           Msg := "数据类型错误，期望 " ++ col.Typ ++ "，实际 " ++ typeNameOf val : ErrorInfo }]
      else []
    | none => []
  let enumErrs :=
    if col.Options.length > 0 then
      match rowLookup row col.Name with
      | some val =>
        if val = .vnil then []
        else
          match val with
          | .vstr valStr =>
            if col.Options.contains valStr then []
            else
              [{ Sheet := sheetName, Row := rowIndex + 4, Column := col.Name,
                 Msg := "值不在可选范围内，可选值: " ++ optionsVerb col.Options : ErrorInfo }]
          | _ => []  -- 非字符串类型跳过枚举验证
      | none => []
    else []
  requiredErrs ++ typeErrs ++ enumErrs

/-- The row loop of Validate from 0-based row index `rowIndex`. -/
def validateRows (sheetName : String) (columns : List ColumnInfo) :
    Nat → List GoRow → List ErrorInfo
  | _, [] => []
  | rowIndex, row :: rest =>
    (columns.flatMap (validateCell sheetName rowIndex row)) ++
      validateRows sheetName columns (rowIndex + 1) rest

/-- DefaultValidator.Validate. -/
def validateSheet (sheet : DataSheet) : List ErrorInfo :=
  validateRows sheet.Name sheet.Columns 0 sheet.Rows

/-- The set (as a list) of non-nil values present in a sheet's first
column, the validator's per-sheet reference index. -/
def firstColValues (s : DataSheet) : List GoValue :=
  match s.Columns with
  | [] => []
  | c :: _ =>
    s.Rows.filterMap (fun row =>
      match rowLookup row c.Name with
      | none => none
      | some .vnil => none
      | some v => some v)

/-- ValidateRef's refIndex, looked up by sheet name (a Go map written once
per sheet in list order: the last sheet with a name wins). -/
def refIndexLookup (sheets : List DataSheet) (name : String) : Option (List GoValue) :=
  sheets.foldl (fun acc s => if s.Name = name then some (firstColValues s) else acc) none

/-- The per-row reference check for one column with `col.Ref = some ref`
and the referenced sheet's value set `vals`. -/
def refRowErrors (sheetName : String) (colName : String) (refSheet : String)
    (vals : List GoValue) : Nat → List GoRow → List ErrorInfo
  | _, [] => []
  | rowIndex, row :: rest =>
    (match rowLookup row colName with
      | none => []
      | some .vnil => []
      | some v =>
        if vals.contains v then []
        else
          [{ Sheet := sheetName, Row := rowIndex + 4, Column := colName,
             Msg := "引用值 " ++ goValueVerb v ++ " 在表 " ++ refSheet ++ " 中不存在" : ErrorInfo }]) ++
      refRowErrors sheetName colName refSheet vals (rowIndex + 1) rest

/-- The errors ValidateRef emits while processing one column of one sheet:
nothing for a column with no Ref; one table-level error (Row 0) when the
referenced sheet is absent; otherwise the per-row membership check. -/
def refErrorsForColumn (sheets : List DataSheet) (sheet : DataSheet)
    (col : ColumnInfo) : List ErrorInfo :=
  match col.Ref with
  | none => []
  | some ref =>
    match refIndexLookup sheets ref.Sheet with
    | none =>
      [{ Sheet := sheet.Name, Row := 0, Column := col.Name,
         Msg := "引用的表 " ++ ref.Sheet ++ " 不存在" : ErrorInfo }]
    | some vals => refRowErrors sheet.Name col.Name ref.Sheet vals 0 sheet.Rows

/-- DefaultValidator.ValidateRef. -/
def validateRef (sheets : List DataSheet) : List ErrorInfo :=
  sheets.flatMap (fun sheet => sheet.Columns.flatMap (refErrorsForColumn sheets sheet))

/-- DefaultValidator.ValidateAll: every sheet's per-cell errors in sheet
order, then the cross-table reference errors. -/
def validateAll (sheets : List DataSheet) : List ErrorInfo :=
  sheets.flatMap validateSheet ++ validateRef sheets

/-! ## Table transformer: sheet merge (Builder.applyCombineConfig) -/

/-- config.CombineSheet (the `KeyColumn` field is carried but never read
by the merge code). -/
structure CombineSheet where
  SourceSheets : List String
  KeyColumn : String
  OutputName : String
deriving DecidableEq, Repr

/-- The Go `sheetMap` built by `sheetMap[sheet.Name] = sheet` over the list
in order: the last sheet with the name wins. -/
def sheetMapLookup (sheets : List DataSheet) (n : String) : Option DataSheet :=
  sheets.foldl (fun acc s => if s.Name = n then some s else acc) none

/-- The merge loop's `allExists` check for one group. -/
def groupAllExists (sheets : List DataSheet) (g : CombineSheet) : Bool :=
  g.SourceSheets.all (fun n => (sheetMapLookup sheets n).isSome)

/-- The combined sheet the merge loop builds for a group that passed
`allExists`: the first source's column list (Go would nil-deref on an
absent first source, unreachable under allExists — modelled with getD),
the concatenation of the sources' rows in configured order, empty Meta. -/
def mergeGroup (sheets : List DataSheet) (g : CombineSheet) : DataSheet :=
  { Name := g.OutputName
    Columns :=
      match g.SourceSheets with
      | [] => []
      | n :: _ => ((sheetMapLookup sheets n).map DataSheet.Columns).getD []
    Rows :=
      g.SourceSheets.foldl
        (fun acc n => acc ++ ((sheetMapLookup sheets n).map DataSheet.Rows).getD []) []
    Meta := [] }

/-- Whether the merge pass marks a sheet name processed: it is a source of
some group whose sources are all present. -/
def processedByCombine (groups : List CombineSheet) (sheets : List DataSheet)
    (n : String) : Bool :=
  groups.any (fun g => groupAllExists sheets g && g.SourceSheets.contains n)

/-- Builder.applyCombineConfig: `none` models a nil CombineConfig (return
the input unchanged); otherwise the merged sheets of the passing groups in
group order, then the sheets not marked processed, in original order.
CombineConfig.Sheets is a Go map, so the group list's order stands for the
iteration order Go chose. -/
def applyCombineConfig (cfg : Option (List CombineSheet)) (sheets : List DataSheet) :
    List DataSheet :=
  match cfg with
  | none => sheets
  | some groups =>
    ((groups.filter (groupAllExists sheets)).map (mergeGroup sheets)) ++
      sheets.filter (fun s => ! processedByCombine groups sheets s.Name)

/-! ## Orchestrator: fast-mode staleness check (Builder.needProcess) -/

/-- config.ConverterConfig (Options are opaque to the claims; the Go zero
value is `Enabled = false`, empty strings). -/
structure ConverterConfig where
  Typ : String := ""
  Enabled : Bool := false
  OutputPath : String := ""
deriving DecidableEq, Repr

/-- The configuration fields the orchestrator reads.  `Converters = none`
models a nil Go map (ConfigManager then returns nil); a present map yields
a pointer to the entry or to the zero value when the key is absent. -/
structure BuilderConfig where
  OutputDir : String
  Formats : List String
  Converters : Option (List (String × ConverterConfig))
deriving DecidableEq, Repr

/-- ConfigManager.GetConverterConfig. -/
def getConverterConfig (cfg : BuilderConfig) (format : String) : Option ConverterConfig :=
  match cfg.Converters with
  | none => none
  | some l => some (((l.find? (fun p => p.1 == format)).map Prod.snd).getD {})

/-- Go `filepath.Join` of two components (Join also cleans the path; the
file system is abstract and keyed by exactly these strings, so the plain
concatenation is the faithful part). -/
def goJoin (a b : String) : String :=
  a ++ "/" ++ b

/-- Go `filepath.Base` (of the slash paths this pipeline builds). -/
def goBase (path : String) : String :=
  (goSplit path '/').getLastD path

/-- Go `filepath.Ext`: the suffix of the base name from its last dot. -/
def goExt (path : String) : String :=
  let cs := (goBase path).data.reverse
  let ext := cs.takeWhile (fun c => c != '.')
  if ext.length = cs.length then "" else ⟨'.' :: ext.reverse⟩

/-- The output artifact name needProcess checks per format: `.json`,
`.php`, or `.bin` for fbs; `none` models the switch's `default: continue`
for any other format string. -/
def artifactName (format : String) (fileName : String) : Option String :=
  match format with
  | "json" => some (fileName ++ ".json")
  | "php" => some (fileName ++ ".php")
  | "fbs" => some (fileName ++ ".bin")
  | _ => none

/-- Builder.needProcess.  `fs` is the file system's modification-time view
(`none` = os.Stat fails / file missing); Go's ModTime().Before is the
strict order.  True = the source file must be (re)processed. -/
def needProcess (fs : String → Option Int) (cfg : BuilderConfig) (filePath : String) : Bool :=
  match fs filePath with
  | none => true
  | some fileModTime =>
    cfg.Formats.any (fun format =>
      match getConverterConfig cfg format with
      | none => false
      | some convConfig =>
        if ! convConfig.Enabled then false
        else
          let outputDir :=
            if convConfig.OutputPath ≠ "" then goJoin cfg.OutputDir convConfig.OutputPath
            else cfg.OutputDir
          let fileName := goTrimSuffixStr (goBase filePath) (goExt filePath)
          match artifactName format fileName with
          | none => false
          | some outputFileName =>
            match fs (goJoin outputDir outputFileName) with
            | none => true
            | some outTime => outTime < fileModTime)

/-! ## Converter factory and dispatch (ConverterFactory, Builder.convertData) -/

/-- The three converter implementations the factory registers. -/
inductive ConverterKind where
  | json
  | php
  | fbs
deriving DecidableEq, Repr

/-- ConverterFactory.GetConverter: the registered-format map (the factory
registers exactly json, php and fbs), written as the lookup chain so that
it rewrites under a symbolic format. -/
def registeredConverter (format : String) : Option ConverterKind :=
  if format = "json" then some .json
  else if format = "php" then some .php
  else if format = "fbs" then some .fbs
  else none

/-- ConverterFactory.CreateConverter: `(nil, nil)` — `(none, none)` — for
an unregistered format; otherwise a fresh instance whose Init (it only
stores the options map) never fails.  The second component models the
returned error. -/
def createConverter (format : String) : Option ConverterKind × Option Unit :=
  match registeredConverter format with
  | none => (none, none)
  | some k => (some k, none)

/-- What one format's work amounts to inside convertData/asyncConvertData.
`batch` stands for the dynamic dispatch `conv.BatchConvert(sheets)`:
convertData is proved for every implementation of the converter interface. -/
inductive ConvertOutcome where
  | ok (results : List ConvertResult)
  | failed
  | nilCall (format : String)
deriving DecidableEq, Repr

/-- The dispatch table abstraction for `IConverter.BatchConvert`. -/
abbrev BatchFun := ConverterKind → List DataSheet → Except Unit (List ConvertResult)

/-- The synchronous format loop of Builder.convertData: skip a format with
no enabled config; a CreateConverter error fails the run; a nil converter
with a nil error reaches `conv.BatchConvert` — a method call on a nil
interface, modelled as the `nilCall` outcome (the Go program panics). -/
def convertDataSyncLoop (batch : BatchFun) (cfg : BuilderConfig)
    (sheets : List DataSheet) : List String → List ConvertResult → ConvertOutcome
  | [], acc => .ok acc
  | format :: rest, acc =>
    match getConverterConfig cfg format with
    | none => convertDataSyncLoop batch cfg sheets rest acc
    | some convConfig =>
      if ! convConfig.Enabled then convertDataSyncLoop batch cfg sheets rest acc
      else
        match createConverter format with
        | (_, some _) => .failed
        | (none, none) => .nilCall format
        | (some k, none) =>
          match batch k sheets with
          | .error _ => .failed
          | .ok rs => convertDataSyncLoop batch cfg sheets rest (acc ++ rs)

/-- Builder.convertData's synchronous path. -/
def convertDataSync (batch : BatchFun) (cfg : BuilderConfig)
    (sheets : List DataSheet) : ConvertOutcome :=
  convertDataSyncLoop batch cfg sheets cfg.Formats []

/-- What one goroutine of asyncConvertData sends: `skipped` = `(nil, nil)`
for a disabled format, `failed` = a creation or batch error, `panicked` = a
BatchConvert call on a nil converter (crashes the process), `done` = the
batch's results. -/
inductive UnitOutcome where
  | skipped
  | unitFailed
  | panicked
  | done (rs : List ConvertResult)
deriving DecidableEq, Repr

/-- One format's goroutine body in Builder.asyncConvertData. -/
def asyncConvertUnit (batch : BatchFun) (cfg : BuilderConfig)
    (sheets : List DataSheet) (format : String) : UnitOutcome :=
  match getConverterConfig cfg format with
  | none => .skipped
  | some convConfig =>
    if ! convConfig.Enabled then .skipped
    else
      match createConverter format with
      | (_, some _) => .unitFailed
      | (none, none) => .panicked
      | (some k, none) =>
        match batch k sheets with
        | .error _ => .unitFailed
        | .ok rs => .done rs

/-- Builder.asyncConvertData: all units launched, results collected.  A
panicking goroutine crashes the whole process (`nilCall`); otherwise any
unit's error fails the phase; otherwise the result batches are
concatenated (the channel arrival order is scheduler-dependent and is
modelled as launch order, which no claim inspects). -/
def convertDataAsync (batch : BatchFun) (cfg : BuilderConfig)
    (sheets : List DataSheet) : ConvertOutcome :=
  let units := cfg.Formats.map (fun f => (f, asyncConvertUnit batch cfg sheets f))
  match units.find? (fun u => match u.2 with | .panicked => true | _ => false) with
  | some u => .nilCall u.1
  | none =>
    if units.any (fun u => match u.2 with | .unitFailed => true | _ => false) then .failed
    else
      .ok (units.flatMap (fun u => match u.2 with | .done rs => rs | _ => []))

/-! ## PHP encoder (PHPConverter.Convert) -/

/-- PHPConverter.boolToString. -/
def phpBoolToString (b : Bool) : String :=
  if b then "true" else "false"

/-- The apostrophe character the PHP encoder escapes. -/
def quoteChar : Char :=
  Char.ofNat 39

/-- Go `strings.ReplaceAll` for a one-character pattern (the only shape
the PHP encoder uses: every `'` becomes `\\'`). -/
def goReplaceChar (s : String) (old : Char) (new : String) : String :=
  String.mk (s.data.flatMap (fun c => if c = old then new.data else [c]))

/-- PHPConverter.valueToString: the type switch over the cell value; the
default case (which the nil interface hits) renders "null".  fmt `%v` of a
float64 is represented by its exact rational's rendering (no claim
inspects a float's text). -/
def phpValueToString : GoValue -> String
  | .vstr v => "'" ++ goReplaceChar v quoteChar "\\'" ++ "'"
  | .vbool b => phpBoolToString b
  | .vint n => toString n
  | .vfloat q => toString q
  | .vnil => "null"

/-- One column's block in the generated PHP columns array. -/
def phpColumnBlock (p : Nat × ColumnInfo) : String :=
  let col := p.2
  "        " ++ toString p.1 ++ " => [\n" ++
  "            'name' => '" ++ col.Name ++ "',\n" ++
  "            'type' => '" ++ col.Typ ++ "',\n" ++
  "            'comment' => '" ++ col.Comment ++ "',\n" ++
  "            'required' => " ++ phpBoolToString col.Required ++ ",\n" ++
  (if col.Default != .vnil then
    "            'default' => " ++ phpValueToString col.Default ++ ",\n"
  else "            'default' => null,\n") ++
  (if col.Options.length > 0 then
    "            'options' => [\n" ++
      String.join (col.Options.enum.map (fun q =>
        "                " ++ toString q.1 ++ " => '" ++ q.2 ++ "',\n")) ++
      "            ],\n"
  else "            'options' => [],\n") ++
  (match col.Ref with
    | some r =>
      "            'ref' => ['sheet' => '" ++ r.Sheet ++ "', 'column' => '" ++ r.Column ++ "'],\n"
    | none => "            'ref' => null,\n") ++
  "        ],\n"

/-- One row's block in the generated PHP rows array (fields in column
order; a column absent from the row map renders null). -/
def phpRowBlock (columns : List ColumnInfo) (p : Nat × GoRow) : String :=
  "        " ++ toString p.1 ++ " => [\n" ++
  String.join (columns.map (fun col =>
    match rowLookup p.2 col.Name with
    | some v => "            '" ++ col.Name ++ "' => " ++ phpValueToString v ++ ",\n"
    | none => "            '" ++ col.Name ++ "' => null,\n")) ++
  "        ],\n"

/-- PHPConverter.Convert: the exact string the builder accumulates.  The
meta section ranges over the sheet's Meta map in the (Go-randomised)
iteration order the Meta list stands for. -/
def phpConvert (sheet : DataSheet) : ConvertResult :=
  let content :=
    "<?php\n" ++
    "// 自动生成的 " ++ sheet.Name ++ " 数据文件\n" ++
    "// 表名: " ++ sheet.Name ++ "\n\n" ++
    "return [\n" ++
    "    'name' => '" ++ sheet.Name ++ "',\n" ++
    "    'columns' => [\n" ++
    String.join (sheet.Columns.enum.map phpColumnBlock) ++
    "    ],\n" ++
    "    'rows' => [\n" ++
    String.join (sheet.Rows.enum.map (phpRowBlock sheet.Columns)) ++
    "    ],\n" ++
    "    'meta' => [\n" ++
    String.join (sheet.Meta.map (fun kv =>
      "        '" ++ kv.1 ++ "' => " ++ phpValueToString kv.2 ++ ",\n")) ++
    "    ],\n" ++
    "];\n"
  { FileName := sheet.Name ++ ".php", Content := content, Format := "php" }

/-- PHPConverter.BatchConvert (Convert never returns an error, so the
batch is the per-sheet conversions in order). -/
def phpBatchConvert (sheets : List DataSheet) : Except Unit (List ConvertResult) :=
  .ok (sheets.map phpConvert)

/-! ## Claim theorems -/

/-- C1 counterexample: the delimited-text reader's boolean coercion fails
on the cell text "yes" (for both boolean type tags), so boolean cell
coercion can fail in that reader variant, refuting the claim as stated. -/
theorem csv_bool_yes_fails_cex :
    (csvConvertValue "yes" "bool").2 = false ∧ (csvConvertValue "yes" "boolean").2 = false := by
  decide

/-- C1 (amended): for a boolean-typed column the spreadsheet reader's
coercion never fails and yields true exactly on the case-insensitive
literals "true"/"1"/"yes"; the delimited-text reader's coercion follows Go
strconv.ParseBool and fails exactly outside its twelve literals (so a cell
such as "yes" aborts reading a CSV file instead of degrading to false). -/
theorem boolean_coercion_by_reader (s t : String) (ht : t = "bool" ∨ t = "boolean") :
    (excelConvertValue s t).2 = true ∧
    ((excelConvertValue s t).1 = .vbool true ↔
      (goToLower s = "true" ∨ goToLower s = "1" ∨ goToLower s = "yes")) ∧
    ((csvConvertValue s t).2 = false ↔
      ¬ s ∈ (["1", "t", "T", "true", "TRUE", "True",
              "0", "f", "F", "false", "FALSE", "False"] : List String)) := by
  have hparse : ((parseBool s).2 = false ↔
      ¬ s ∈ (["1", "t", "T", "true", "TRUE", "True",
              "0", "f", "F", "false", "FALSE", "False"] : List String)) := by
    unfold parseBool
    split_ifs with h1 h2 <;> (simp_all; try tauto)
  rcases ht with rfl | rfl
  · have he : excelConvertValue s "bool" =
        (if goToLower s = "true" ∨ goToLower s = "1" ∨ goToLower s = "yes"
         then (.vbool true, true) else (.vbool false, true)) := rfl
    have hc : csvConvertValue s "bool" = (.vbool (parseBool s).1, (parseBool s).2) := rfl
    rw [he, hc]
    split_ifs with h <;> simp_all
  · have he : excelConvertValue s "boolean" =
        (if goToLower s = "true" ∨ goToLower s = "1" ∨ goToLower s = "yes"
         then (.vbool true, true) else (.vbool false, true)) := rfl
    have hc : csvConvertValue s "boolean" = (.vbool (parseBool s).1, (parseBool s).2) := rfl
    rw [he, hc]
    split_ifs with h <;> simp_all

/-- C1 witness: the amended theorem at the cell text "yes" in a
"bool"-typed column. -/
theorem boolean_coercion_by_reader_witness :
    (excelConvertValue "yes" "bool").2 = true ∧
    ((excelConvertValue "yes" "bool").1 = .vbool true ↔
      (goToLower "yes" = "true" ∨ goToLower "yes" = "1" ∨ goToLower "yes" = "yes")) ∧
    ((csvConvertValue "yes" "bool").2 = false ↔
      ¬ "yes" ∈ (["1", "t", "T", "true", "TRUE", "True",
              "0", "f", "F", "false", "FALSE", "False"] : List String)) :=
  boolean_coercion_by_reader "yes" "bool" (Or.inl rfl)

/-- C5 helper: a two-entry metadata map in one iteration order. -/
def c5MetaAB : List (String × GoValue) :=
  [("a", .vint 1), ("b", .vint 2)]

/-- C5 helper: the table the PHP encoder is run on, with the iteration
order of its two-entry meta map as a parameter. -/
def c5Sheet (meta : List (String × GoValue)) : DataSheet :=
  { Name := "t", Columns := [], Rows := [], Meta := meta }

/-- C5: the PHP encoder ranges over the table's meta map, so on a table
whose meta map has two entries, the two iteration orders Go may choose
(the map holds the same pairs, as the permutation conjunct states) give
different artifact bytes: the encoder is not deterministic. -/
theorem phpConvert_meta_iteration_order :
    (c5Sheet c5MetaAB).Meta.Perm (c5Sheet c5MetaAB.reverse).Meta ∧
    (phpConvert (c5Sheet c5MetaAB)).Content ≠ (phpConvert (c5Sheet c5MetaAB.reverse)).Content := by
  constructor
  · decide
  · decide

/-- C6 counterexample: an integer value in a "float"-declared column is
reported as a type mismatch, so numeric representations are not accepted
interchangeably in numeric columns. -/
theorem validate_int_in_float_column_cex :
    validateSheet
        { Name := "t",
          Columns := [{ Name := "x", Typ := "float", Comment := "", Required := true,
                        Default := .vnil, Options := [], Ref := none }],
          Rows := [[("x", .vint 1)]], Meta := [] } =
      [{ Sheet := "t", Row := 4, Column := "x",
         Msg := "数据类型错误，期望 float，实际 int" }] := by
  decide

/-- C6 (amended): integer-declared columns accept both numeric
representations the pipeline produces (Go int and float64) without a
type-mismatch error, but float-declared columns accept only the
floating-point representation: an integer value there is a type-mismatch
error.  Width within the accepted representations is not distinguished. -/
theorem validateDataType_numeric_classes (n : Int) (q : Rat) (t : String) :
    ((t = "int" ∨ t = "integer") →
      validateDataType (.vint n) t = true ∧ validateDataType (.vfloat q) t = true) ∧
    ((t = "float" ∨ t = "double" ∨ t = "number") →
      validateDataType (.vfloat q) t = true ∧ validateDataType (.vint n) t = false) := by
  constructor
  · rintro (rfl | rfl) <;> exact ⟨rfl, rfl⟩
  · rintro (rfl | rfl | rfl) <;> exact ⟨rfl, rfl⟩

/-- C6 witness: the amended theorem evaluated at int 1 and float 0 in
"int" and "float" columns. -/
theorem validateDataType_numeric_classes_witness :
    (validateDataType (.vint 1) "int" = true ∧ validateDataType (.vfloat 0) "int" = true) ∧
    (validateDataType (.vfloat 0) "float" = true ∧ validateDataType (.vint 1) "float" = false) :=
  ⟨(validateDataType_numeric_classes 1 0 "int").1 (Or.inl rfl),
   (validateDataType_numeric_classes 1 0 "float").2 (Or.inl rfl)⟩

/-- C8: on a source whose content has two rows (fewer than three), the
Excel read-all yields an empty table list, but the CSV ReadAll yields a
ONE-element list whose entry is the nil sheet its ReadSheet returned — Go
`[nil]` — which later phases dereference; the read succeeds in both. -/
theorem csvReadAll_short_file_nil_entry :
    csvReadAll "data/items.csv" [["id"], ["int"]] = .ok [none] ∧
    excelReadAll [("items", [["id"], ["int"]])] = .ok [] := by
  exact ⟨rfl, rfl⟩

/-- C10: CreateConverter answers an unregistered format with a nil
converter and a nil error, and a configured, enabled entry under such a
format drives both the synchronous and the asynchronous convert paths into
BatchConvert on that nil converter (a run-time panic) — for every
implementation of the converter interface and every sheet list. -/
theorem createConverter_unknown_nil_nil (f : String) (batch : BatchFun)
    (sheets : List DataSheet) (cc : ConverterConfig)
    (hj : f ≠ "json") (hp : f ≠ "php") (hf : f ≠ "fbs") (hen : cc.Enabled = true) :
    createConverter f = (none, none) ∧
    convertDataSync batch
        { OutputDir := "", Formats := [f], Converters := some [(f, cc)] } sheets =
      .nilCall f ∧
    convertDataAsync batch
        { OutputDir := "", Formats := [f], Converters := some [(f, cc)] } sheets =
      .nilCall f := by
  have hreg : registeredConverter f = none := by
    simp [registeredConverter, hj, hp, hf]
  have hcc : getConverterConfig
      { OutputDir := "", Formats := [f], Converters := some [(f, cc)] } f = some cc := by
    simp [getConverterConfig]
  refine ⟨?_, ?_, ?_⟩
  · simp [createConverter, hreg]
  · simp [convertDataSync, convertDataSyncLoop, hcc, hen, createConverter, hreg]
  · simp [convertDataAsync, asyncConvertUnit, hcc, hen, createConverter, hreg, List.find?]

/-- C10 witness: format "xml", enabled, with any converter implementation
that returns empty batches. -/
theorem createConverter_unknown_nil_nil_witness :
    createConverter "xml" = (none, none) ∧
    convertDataSync (fun _ _ => .ok [])
        { OutputDir := "", Formats := ["xml"],
          Converters := some [("xml", { Typ := "", Enabled := true, OutputPath := "" })] } [] =
      .nilCall "xml" ∧
    convertDataAsync (fun _ _ => .ok [])
        { OutputDir := "", Formats := ["xml"],
          Converters := some [("xml", { Typ := "", Enabled := true, OutputPath := "" })] } [] =
      .nilCall "xml" :=
  createConverter_unknown_nil_nil "xml" (fun _ _ => .ok []) []
    { Typ := "", Enabled := true, OutputPath := "" }
    (by decide) (by decide) (by decide) rfl

/-- Accumulating concatenation: the merge loop's row foldl equals the flat
concatenation of the per-source row lists. -/
theorem foldl_append_eq_flatten {α β : Type} (f : α → List β) :
    ∀ (l : List α) (acc : List β),
      l.foldl (fun a x => a ++ f x) acc = acc ++ (l.map f).flatten
  | [], acc => by simp
  | x :: l, acc => by
    simp [foldl_append_eq_flatten f l (acc ++ f x), List.append_assoc]

/-- C2: for a single configured merge group whose named sources are all
present, the transformer's output is exactly one new table — configured
output name, the first source's column list, and exactly the concatenation
of the sources' rows in configured source order — followed by the input
tables that are not sources, in their original order (all source tables
removed); when any named source is absent, the collection is returned
entirely unchanged. -/
theorem applyCombineConfig_merge_group (g : CombineSheet) (sheets : List DataSheet)
    (n₀ : String) (rest : List String) (hsrc : g.SourceSheets = n₀ :: rest) :
    (groupAllExists sheets g = true →
      ∃ s₀, sheetMapLookup sheets n₀ = some s₀ ∧
        applyCombineConfig (some [g]) sheets =
          { Name := g.OutputName, Columns := s₀.Columns,
            Rows := (g.SourceSheets.map
              (fun n => ((sheetMapLookup sheets n).map DataSheet.Rows).getD [])).flatten,
            Meta := [] } ::
            sheets.filter (fun s => ! g.SourceSheets.contains s.Name)) ∧
    (groupAllExists sheets g = false → applyCombineConfig (some [g]) sheets = sheets) := by
  constructor
  · intro hall
    have hn₀ : (sheetMapLookup sheets n₀).isSome = true := by
      have hmem : n₀ ∈ g.SourceSheets := by rw [hsrc]; exact List.mem_cons_self _ _
      exact List.all_eq_true.mp hall n₀ hmem
    obtain ⟨s₀, hs₀⟩ := Option.isSome_iff_exists.mp hn₀
    refine ⟨s₀, hs₀, ?_⟩
    have hmg : mergeGroup sheets g =
        { Name := g.OutputName, Columns := s₀.Columns,
          Rows := (g.SourceSheets.map
            (fun n => ((sheetMapLookup sheets n).map DataSheet.Rows).getD [])).flatten,
          Meta := [] } := by
      unfold mergeGroup
      rw [hsrc]
      simp [hs₀, foldl_append_eq_flatten]
    have happ : applyCombineConfig (some [g]) sheets =
        (List.filter (groupAllExists sheets) [g]).map (mergeGroup sheets) ++
          sheets.filter (fun s => ! processedByCombine [g] sheets s.Name) := rfl
    have hfil : List.filter (groupAllExists sheets) [g] = [g] := by
      simp [List.filter, hall]
    have hproc : ∀ s : DataSheet,
        (! processedByCombine [g] sheets s.Name) = (! g.SourceSheets.contains s.Name) := by
      intro s
      simp [processedByCombine, hall]
    rw [happ, hfil]
    simp only [List.map, hmg, List.singleton_append]
    congr 1
    exact List.filter_congr (fun s _ => hproc s)
  · intro hnone
    have happ : applyCombineConfig (some [g]) sheets =
        (List.filter (groupAllExists sheets) [g]).map (mergeGroup sheets) ++
          sheets.filter (fun s => ! processedByCombine [g] sheets s.Name) := rfl
    have hfil : List.filter (groupAllExists sheets) [g] = [] := by
      simp [List.filter, hnone]
    have hproc : ∀ s : DataSheet, (! processedByCombine [g] sheets s.Name) = true := by
      intro s
      simp [processedByCombine, hnone]
    rw [happ, hfil]
    simp only [List.map_nil, List.nil_append]
    exact List.filter_eq_self.mpr (fun s _ => hproc s)

/-- C2 helper: the id column of the witness tables. -/
def c2ColId : ColumnInfo :=
  { Name := "id", Typ := "int", Comment := "", Required := true,
    Default := .vnil, Options := [], Ref := none }

/-- C2 helper: witness source table "a". -/
def c2SheetA : DataSheet :=
  { Name := "a", Columns := [c2ColId], Rows := [[("id", .vint 1)]], Meta := [] }

/-- C2 helper: witness source table "b". -/
def c2SheetB : DataSheet :=
  { Name := "b", Columns := [c2ColId], Rows := [[("id", .vint 2)]], Meta := [] }

/-- C2 helper: witness bystander table "c". -/
def c2SheetC : DataSheet :=
  { Name := "c", Columns := [c2ColId], Rows := [], Meta := [] }

/-- C2 helper: the witness merge group combining "a" and "b" into "ab". -/
def c2Group : CombineSheet :=
  { SourceSheets := ["a", "b"], KeyColumn := "id", OutputName := "ab" }

/-- C2 witness: merging tables "a" and "b" (with bystander "c") yields the
"ab" table with a's columns and a's rows followed by b's rows, and only
"c" surviving unmerged. -/
theorem applyCombineConfig_merge_group_witness :
    applyCombineConfig (some [c2Group]) [c2SheetA, c2SheetB, c2SheetC] =
      [{ Name := "ab", Columns := [c2ColId],
         Rows := [[("id", .vint 1)], [("id", .vint 2)]], Meta := [] }, c2SheetC] := by
  obtain ⟨s₀, hs₀, heq⟩ :=
    (applyCombineConfig_merge_group c2Group [c2SheetA, c2SheetB, c2SheetC] "a" ["b"] rfl).1
      (by decide)
  have hs₀' : s₀ = c2SheetA := by
    have : sheetMapLookup [c2SheetA, c2SheetB, c2SheetC] "a" = some c2SheetA := by decide
    rw [this] at hs₀
    exact (Option.some_inj.mp hs₀).symm
  subst hs₀'
  rw [heq]
  decide

/-- Every error the per-cell check emits for one (row, column) names that
row's sheet, its shifted row number (data rows start at source row 4) and
that column. -/
theorem mem_validateCell_fields (name : String) (i : Nat) (row : GoRow)
    (col : ColumnInfo) :
    ∀ e ∈ validateCell name i row col,
      e.Sheet = name ∧ e.Row = i + 4 ∧ e.Column = col.Name := by
  intro e he
  unfold validateCell at he
  simp only [List.mem_append] at he
  have hone : ∀ (msg : String),
      e = { Sheet := name, Row := i + 4, Column := col.Name, Msg := msg } →
      e.Sheet = name ∧ e.Row = i + 4 ∧ e.Column = col.Name := by
    rintro msg rfl
    exact ⟨rfl, rfl, rfl⟩
  rcases he with (h | h) | h
  · split at h
    · exact hone _ (List.mem_singleton.mp h)
    · exact absurd h (List.not_mem_nil _)
  · split at h
    · split at h
      · exact hone _ (List.mem_singleton.mp h)
      · exact absurd h (List.not_mem_nil _)
    · exact absurd h (List.not_mem_nil _)
  · split at h
    · split at h
      · split at h
        · exact absurd h (List.not_mem_nil _)
        · split at h
          · split at h
            · exact absurd h (List.not_mem_nil _)
            · exact hone _ (List.mem_singleton.mp h)
          · exact absurd h (List.not_mem_nil _)
      · exact absurd h (List.not_mem_nil _)
    · exact absurd h (List.not_mem_nil _)

/-- Every error of one row's column sweep carries that sheet name and that
row's shifted number. -/
theorem mem_row_block_fields (name : String) (i : Nat) (row : GoRow)
    (cols : List ColumnInfo) :
    ∀ e ∈ cols.flatMap (validateCell name i row), e.Sheet = name ∧ e.Row = i + 4 := by
  intro e he
  obtain ⟨c, _, hec⟩ := List.mem_flatMap.mp he
  obtain ⟨h1, h2, _⟩ := mem_validateCell_fields name i row c e hec
  exact ⟨h1, h2⟩

/-- Rows processed from index k on only yield errors at shifted row
numbers k + 4 and beyond. -/
theorem mem_validateRows_row_ge (name : String) (cols : List ColumnInfo) :
    ∀ (k : Nat) (rows : List GoRow), ∀ e ∈ validateRows name cols k rows, k + 4 ≤ e.Row := by
  intro k rows
  induction rows generalizing k with
  | nil => intro e he; simp [validateRows] at he
  | cons r rest ih =>
    intro e he
    rw [validateRows] at he
    rcases List.mem_append.mp he with h | h
    · exact le_of_eq ((mem_row_block_fields name k r cols e h).2).symm
    · exact le_trans (by omega) (ih (k + 1) e h)

/-- Counting over a flat map in which only one occurrence's block can meet
the predicate. -/
theorem countP_flatMap_single {α β : Type} [DecidableEq α] (l : List α)
    (f : α → List β) (p : β → Bool) (x : α)
    (hcount : l.count x = 1)
    (hzero : ∀ y ∈ l, y ≠ x → (f y).countP p = 0) :
    (l.flatMap f).countP p = (f x).countP p := by
  induction l with
  | nil => simp at hcount
  | cons a l ih =>
    rw [List.flatMap_cons, List.countP_append]
    by_cases hax : a = x
    · subst hax
      have hcl : l.count a = 0 := by
        have h := List.count_cons_self a l
        omega
      have hnot : a ∉ l := by
        intro hmem
        have := List.count_pos_iff.mpr hmem
        omega
      have hzl : (l.flatMap f).countP p = 0 := by
        rw [List.countP_eq_zero]
        intro e he
        obtain ⟨y, hy, hey⟩ := List.mem_flatMap.mp he
        have hyx : y ≠ a := fun h => hnot (h ▸ hy)
        exact (List.countP_eq_zero.mp (hzero y (List.mem_cons_of_mem _ hy) hyx)) e hey
      rw [hzl]
      simp
    · have hza : (f a).countP p = 0 := hzero a (List.mem_cons_self a l) hax
      have hcl : l.count x = 1 := by
        rw [List.count_cons] at hcount
        simpa [hax] using hcount
      rw [hza, ih hcl (fun y hy hyx => hzero y (List.mem_cons_of_mem _ hy) hyx)]
      simp

/-- Counting errors at one row number through the Validate row loop:
only the block of the row at that index contributes. -/
theorem validateRows_countP_at (name : String) (cols : List ColumnInfo)
    (q : ErrorInfo → Bool) :
    ∀ (rows : List GoRow) (k i : Nat) (row : GoRow), rows[i]? = some row →
      (validateRows name cols k rows).countP (fun e => q e && e.Row == (k + i) + 4) =
        (cols.flatMap (validateCell name (k + i) row)).countP
          (fun e => q e && e.Row == (k + i) + 4) := by
  intro rows
  induction rows with
  | nil => intro k i row h; simp at h
  | cons r rest ih =>
    intro k i row h
    rw [validateRows, List.countP_append]
    cases i with
    | zero =>
      obtain rfl : r = row := by simpa using h
      have hz : (validateRows name cols (k + 1) rest).countP
          (fun e => q e && e.Row == (k + 0) + 4) = 0 := by
        rw [List.countP_eq_zero]
        intro e he
        have hge := mem_validateRows_row_ge name cols (k + 1) rest e he
        simp only [Bool.and_eq_true, beq_iff_eq, not_and]
        intro _ hrow
        omega
      rw [hz]
      simp
    | succ j =>
      have h' : rest[j]? = some row := by simpa using h
      have harith : (k + 1) + j = k + (j + 1) := by omega
      have hz : (cols.flatMap (validateCell name k r)).countP
          (fun e => q e && e.Row == (k + (j + 1)) + 4) = 0 := by
        rw [List.countP_eq_zero]
        intro e he
        have hrow := (mem_row_block_fields name k r cols e he).2
        simp only [Bool.and_eq_true, beq_iff_eq, not_and]
        intro _ hrow'
        omega
      rw [hz]
      have := ih (k + 1) j row h'
      rw [harith] at this
      rw [this]
      simp

/-- The per-cell check on one (row, column) whose value is absent, nil or
empty, for a column with no enumeration options: exactly the required
error when the column is required, nothing otherwise. -/
theorem emptyValueAt_iff (row : GoRow) (name : String) :
    emptyValueAt row name = true ↔
      rowLookup row name = none ∨ rowLookup row name = some .vnil ∨
        rowLookup row name = some (.vstr "") := by
  unfold emptyValueAt
  rcases rowLookup row name with _ | v
  · simp
  · rcases v with _ | n | q | b | s
    · simp
    · simp
    · simp
    · simp
    · by_cases hs : s = "" <;> simp [hs]

theorem validateCell_empty_no_options (name : String) (i : Nat) (row : GoRow)
    (col : ColumnInfo) (hopt : col.Options = [])
    (hempty : emptyValueAt row col.Name = true) :
    validateCell name i row col =
      (if col.Required then
        [{ Sheet := name, Row := i + 4, Column := col.Name, Msg := "必填字段不能为空" }]
      else []) := by
  have hcases := (emptyValueAt_iff row col.Name).mp hempty
  unfold validateCell
  rw [hopt]
  rcases hcases with hL | hL | hL <;> rw [hL] <;> simp [hempty]

/-- C4 counterexample: a non-required column that carries enumeration
options and holds a present empty-string value yields an enumeration
ErrorRecord, so an empty value in a non-required column is not always
error-free (and a required such column would yield two records). -/
theorem validate_empty_enum_column_cex :
    validateSheet
        { Name := "t",
          Columns := [{ Name := "x", Typ := "string", Comment := "", Required := false,
                        Default := .vnil, Options := ["a"], Ref := none }],
          Rows := [[("x", .vstr "")]], Meta := [] } =
      [{ Sheet := "t", Row := 4, Column := "x",
         Msg := "值不在可选范围内，可选值: [a]" }] := by
  decide

/-- C4 (amended): restricted to columns with no enumeration options the
claim holds: for every table, row and column without options, an absent,
null or empty value at that (row, column) yields exactly one ErrorRecord
naming that row and column when the column is required, and none when it
is not (a column with a non-empty enumeration additionally emits an
enumeration ErrorRecord when the present value is the empty string). -/
theorem validate_required_empty_counts (s : DataSheet) (col : ColumnInfo)
    (i : Nat) (row : GoRow)
    (hnd : (s.Columns.map ColumnInfo.Name).Nodup)
    (hcol : col ∈ s.Columns)
    (hopt : col.Options = [])
    (hrow : s.Rows[i]? = some row)
    (hempty : emptyValueAt row col.Name = true) :
    (validateSheet s).countP
        (fun e => (e.Sheet == s.Name && e.Column == col.Name) && e.Row == i + 4) =
      (if col.Required then 1 else 0) := by
  unfold validateSheet
  have h0 := validateRows_countP_at s.Name s.Columns
      (fun e => e.Sheet == s.Name && e.Column == col.Name) s.Rows 0 i row hrow
  rw [Nat.zero_add] at h0
  rw [h0]
  have hnodup : s.Columns.Nodup := hnd.of_map _
  have hcount : s.Columns.count col = 1 := List.count_eq_one_of_mem hnodup hcol
  have hzero : ∀ y ∈ s.Columns, y ≠ col →
      (validateCell s.Name i row y).countP
        (fun e => (e.Sheet == s.Name && e.Column == col.Name) && e.Row == i + 4) = 0 := by
    intro y hy hyne
    rw [List.countP_eq_zero]
    intro e he
    obtain ⟨_, _, hcolname⟩ := mem_validateCell_fields s.Name i row y e he
    have hne : y.Name ≠ col.Name := by
      intro hEq
      exact hyne (List.inj_on_of_nodup_map hnd hy hcol hEq)
    simp only [Bool.and_eq_true, beq_iff_eq, not_and]
    rintro ⟨_, hcolEq⟩ _
    exact hne (hcolname ▸ hcolEq)
  rw [countP_flatMap_single s.Columns (validateCell s.Name i row) _ col hcount hzero,
      validateCell_empty_no_options s.Name i row col hopt hempty]
  split <;> simp

/-- C4 helper: the witness table with one required, option-free column and
one row that lacks a value for it. -/
def c4Sheet : DataSheet :=
  { Name := "t",
    Columns := [{ Name := "x", Typ := "string", Comment := "", Required := true,
                  Default := .vnil, Options := [], Ref := none }],
    Rows := [[]], Meta := [] }

/-- C4 witness: the amended theorem at the witness table's only row and
column. -/
theorem validate_required_empty_counts_witness :
    (validateSheet c4Sheet).countP
        (fun e => (e.Sheet == c4Sheet.Name && e.Column == "x") && e.Row == 0 + 4) = 1 := by
  have h := validate_required_empty_counts c4Sheet
      { Name := "x", Typ := "string", Comment := "", Required := true,
        Default := .vnil, Options := [], Ref := none } 0 []
      (by decide) (by decide) rfl (by decide) (by decide)
  exact h

/-- Every error of the per-row reference check names that sheet and
column, at a shifted row number at or beyond the loop's start. -/
theorem mem_refRowErrors_fields (sn cn rs : String) (vals : List GoValue) :
    ∀ (k : Nat) (rows : List GoRow), ∀ e ∈ refRowErrors sn cn rs vals k rows,
      e.Sheet = sn ∧ e.Column = cn ∧ k + 4 ≤ e.Row := by
  intro k rows
  induction rows generalizing k with
  | nil => intro e he; simp [refRowErrors] at he
  | cons r rest ih =>
    intro e he
    rw [refRowErrors] at he
    rcases List.mem_append.mp he with h | h
    · split at h
      · exact absurd h (List.not_mem_nil _)
      · exact absurd h (List.not_mem_nil _)
      · split at h
        · exact absurd h (List.not_mem_nil _)
        · obtain rfl := List.mem_singleton.mp h
          exact ⟨rfl, rfl, Nat.le_refl _⟩
    · obtain ⟨h1, h2, h3⟩ := ih (k + 1) e h
      exact ⟨h1, h2, by omega⟩

/-- Every error ValidateRef emits while processing one column names that
sheet and that column. -/
theorem mem_refErrorsForColumn_fields (sheets : List DataSheet) (sheet : DataSheet)
    (col : ColumnInfo) :
    ∀ e ∈ refErrorsForColumn sheets sheet col,
      e.Sheet = sheet.Name ∧ e.Column = col.Name := by
  intro e he
  unfold refErrorsForColumn at he
  split at he
  · exact absurd he (List.not_mem_nil _)
  · split at he
    · obtain rfl := List.mem_singleton.mp he
      exact ⟨rfl, rfl⟩
    · obtain ⟨h1, h2, _⟩ := mem_refRowErrors_fields _ _ _ _ 0 sheet.Rows e he
      exact ⟨h1, h2⟩

/-- Counting reference errors at one row number through the per-row loop:
only the row at that index contributes, and it contributes one error
exactly when its value is present, non-nil and outside the value set. -/
theorem refRowErrors_countP_at (sn cn rs : String) (vals : List GoValue) :
    ∀ (rows : List GoRow) (k i : Nat) (row : GoRow), rows[i]? = some row →
      (refRowErrors sn cn rs vals k rows).countP
          (fun e => (e.Sheet == sn && e.Column == cn) && e.Row == (k + i) + 4) =
        (match rowLookup row cn with
          | none => 0
          | some .vnil => 0
          | some v => if vals.contains v then 0 else 1) := by
  intro rows
  induction rows with
  | nil => intro k i row h; simp at h
  | cons r rest ih =>
    intro k i row h
    rw [refRowErrors, List.countP_append]
    cases i with
    | zero =>
      obtain rfl : r = row := by simpa using h
      have hz : (refRowErrors sn cn rs vals (k + 1) rest).countP
          (fun e => (e.Sheet == sn && e.Column == cn) && e.Row == (k + 0) + 4) = 0 := by
        rw [List.countP_eq_zero]
        intro e he
        have hge := (mem_refRowErrors_fields sn cn rs vals (k + 1) rest e he).2.2
        simp only [Bool.and_eq_true, beq_iff_eq, not_and]
        intro _ hr
        omega
      rw [hz, Nat.add_zero]
      rcases rowLookup r cn with _ | v
      · simp
      · rcases v with _ | n | qv | b | sv
        · simp
        · by_cases hcv : GoValue.vint n ∈ vals <;> simp [hcv]
        · by_cases hcv : GoValue.vfloat qv ∈ vals <;> simp [hcv]
        · by_cases hcv : GoValue.vbool b ∈ vals <;> simp [hcv]
        · by_cases hcv : GoValue.vstr sv ∈ vals <;> simp [hcv]
    | succ j =>
      have h' : rest[j]? = some row := by simpa using h
      have harith : (k + 1) + j = k + (j + 1) := by omega
      have hz : List.countP
          (fun e : ErrorInfo => (e.Sheet == sn && e.Column == cn) && e.Row == (k + (j + 1)) + 4)
          (match rowLookup r cn with
            | none => []
            | some .vnil => []
            | some v =>
              if vals.contains v then []
              else [{ Sheet := sn, Row := k + 4, Column := cn,
                      Msg := "引用值 " ++ goValueVerb v ++ " 在表 " ++ rs ++ " 中不存在" }]) = 0 := by
        rcases rowLookup r cn with _ | v
        · simp
        · rcases v with _ | n | qv | b | sv
          · simp
          · by_cases hcv : GoValue.vint n ∈ vals <;> simp [hcv]
          · by_cases hcv : GoValue.vfloat qv ∈ vals <;> simp [hcv]
          · by_cases hcv : GoValue.vbool b ∈ vals <;> simp [hcv]
          · by_cases hcv : GoValue.vstr sv ∈ vals <;> simp [hcv]
      rw [hz]
      have hrec := ih (k + 1) j row h'
      rw [harith] at hrec
      rw [hrec]
      simp

/-- Collapsing the ValidateRef double loop to one column's errors, for a
predicate that forces that sheet and column name. -/
theorem validateRef_countP_collapse (sheets : List DataSheet) (s : DataSheet)
    (c : ColumnInfo)
    (hnds : (sheets.map DataSheet.Name).Nodup)
    (hs : s ∈ sheets)
    (hndc : (s.Columns.map ColumnInfo.Name).Nodup)
    (hc : c ∈ s.Columns)
    (p : ErrorInfo → Bool)
    (hpS : ∀ e, p e = true → e.Sheet = s.Name ∧ e.Column = c.Name) :
    (validateRef sheets).countP p = (refErrorsForColumn sheets s c).countP p := by
  unfold validateRef
  have hcnt : sheets.count s = 1 := List.count_eq_one_of_mem (hnds.of_map _) hs
  have hz : ∀ y ∈ sheets, y ≠ s →
      (y.Columns.flatMap (refErrorsForColumn sheets y)).countP p = 0 := by
    intro y hy hyne
    rw [List.countP_eq_zero]
    intro e he
    obtain ⟨d, _, hed⟩ := List.mem_flatMap.mp he
    have hSheet := (mem_refErrorsForColumn_fields sheets y d e hed).1
    intro hpe
    have hne : y.Name ≠ s.Name := by
      intro hEq
      exact hyne (List.inj_on_of_nodup_map hnds hy hs hEq)
    exact hne (hSheet ▸ (hpS e hpe).1)
  rw [countP_flatMap_single sheets _ p s hcnt hz]
  have hcntc : s.Columns.count c = 1 := List.count_eq_one_of_mem (hndc.of_map _) hc
  have hzc : ∀ y ∈ s.Columns, y ≠ c → (refErrorsForColumn sheets s y).countP p = 0 := by
    intro y hy hyne
    rw [List.countP_eq_zero]
    intro e he
    have hCol := (mem_refErrorsForColumn_fields sheets s y e he).2
    intro hpe
    have hne : y.Name ≠ c.Name := by
      intro hEq
      exact hyne (List.inj_on_of_nodup_map hndc hy hc hEq)
    exact hne (hCol ▸ (hpS e hpe).2)
  exact countP_flatMap_single s.Columns _ p c hcntc hzc

/-- C3: for a column with a foreign-key reference, under unique sheet and
column names: if the referenced table is absent the validator emits
exactly one ErrorRecord for that column, table-level (none row-located);
otherwise, each row contributes exactly one row-located ErrorRecord when
its value in that column is present, non-null and outside the referenced
table's first-column value set, and none when the value is null or
absent. -/
theorem validateRef_foreign_key_counts (sheets : List DataSheet) (s : DataSheet)
    (c : ColumnInfo) (ref : RefInfo)
    (hnds : (sheets.map DataSheet.Name).Nodup)
    (hs : s ∈ sheets)
    (hndc : (s.Columns.map ColumnInfo.Name).Nodup)
    (hc : c ∈ s.Columns)
    (href : c.Ref = some ref) :
    (refIndexLookup sheets ref.Sheet = none →
      (validateRef sheets).countP (fun e => e.Sheet == s.Name && e.Column == c.Name) = 1 ∧
      (validateRef sheets).countP
        (fun e => (e.Sheet == s.Name && e.Column == c.Name) && e.Row != 0) = 0) ∧
    (∀ vals, refIndexLookup sheets ref.Sheet = some vals →
      ∀ (i : Nat) (row : GoRow), s.Rows[i]? = some row →
        (validateRef sheets).countP
            (fun e => (e.Sheet == s.Name && e.Column == c.Name) && e.Row == i + 4) =
          (match rowLookup row c.Name with
            | none => 0
            | some .vnil => 0
            | some v => if vals.contains v then 0 else 1)) := by
  constructor
  · intro hnone
    have habs : refErrorsForColumn sheets s c =
        [{ Sheet := s.Name, Row := 0, Column := c.Name,
           Msg := "引用的表 " ++ ref.Sheet ++ " 不存在" }] := by
      unfold refErrorsForColumn
      rw [href]
      simp only [hnone]
    constructor
    · rw [validateRef_countP_collapse sheets s c hnds hs hndc hc _
        (by intro e hpe; simp only [Bool.and_eq_true, beq_iff_eq] at hpe; exact hpe), habs]
      simp
    · rw [validateRef_countP_collapse sheets s c hnds hs hndc hc _
        (by intro e hpe; simp only [Bool.and_eq_true, beq_iff_eq] at hpe; exact hpe.1), habs]
      simp
  · intro vals hvals i row hrow
    have hpres : refErrorsForColumn sheets s c =
        refRowErrors s.Name c.Name ref.Sheet vals 0 s.Rows := by
      unfold refErrorsForColumn
      rw [href]
      simp only [hvals]
    rw [validateRef_countP_collapse sheets s c hnds hs hndc hc _
      (by intro e hpe; simp only [Bool.and_eq_true, beq_iff_eq] at hpe; exact hpe.1), hpres]
    have h := refRowErrors_countP_at s.Name c.Name ref.Sheet vals s.Rows 0 i row hrow
    rw [Nat.zero_add] at h
    exact h

/-- C3 helper: witness column carrying a foreign key into table "types". -/
def c3TypeCol : ColumnInfo :=
  { Name := "type", Typ := "int", Comment := "", Required := true,
    Default := .vnil, Options := [], Ref := some { Sheet := "types", Column := "id" } }

/-- C3 helper: witness table "items" with one row whose reference value 4
does not appear in types' first column. -/
def c3Items : DataSheet :=
  { Name := "items",
    Columns := [{ Name := "id", Typ := "int", Comment := "", Required := true,
                  Default := .vnil, Options := [], Ref := none }, c3TypeCol],
    Rows := [[("id", .vint 10), ("type", .vint 4)]], Meta := [] }

/-- C3 helper: witness table "types" with first-column values 1, 2, 3. -/
def c3Types : DataSheet :=
  { Name := "types",
    Columns := [{ Name := "id", Typ := "int", Comment := "", Required := true,
                  Default := .vnil, Options := [], Ref := none }],
    Rows := [[("id", .vint 1)], [("id", .vint 2)], [("id", .vint 3)]], Meta := [] }

/-- C3 witness: the items row with type 4 yields exactly one row-located
ErrorRecord for the reference column. -/
theorem validateRef_foreign_key_counts_witness :
    (validateRef [c3Items, c3Types]).countP
        (fun e => (e.Sheet == c3Items.Name && e.Column == c3TypeCol.Name) && e.Row == 0 + 4) =
      1 := by
  have h := (validateRef_foreign_key_counts [c3Items, c3Types] c3Items c3TypeCol
      { Sheet := "types", Column := "id" }
      (by decide) (by decide) (by decide) (by decide) rfl).2
      [.vint 1, .vint 2, .vint 3] (by decide) 0 [("id", .vint 10), ("type", .vint 4)] (by decide)
  exact h

/-- C9: with fast mode, needProcess answers false — the source file is
skipped entirely — exactly when the source file stats and, for every
configured format whose converter entry exists, is enabled and names a
target artifact (json/php/fbs — any other format is passed over), that
artifact exists with a modification timestamp at or after the source's;
a missing artifact or a strictly earlier timestamp forces reprocessing. -/
theorem needProcess_skip_iff (fs : String → Option Int) (cfg : BuilderConfig)
    (filePath : String) :
    needProcess fs cfg filePath = false ↔
      ∃ t, fs filePath = some t ∧
        ∀ format ∈ cfg.Formats, ∀ cc, getConverterConfig cfg format = some cc →
          cc.Enabled = true →
          ∀ ofn, artifactName format (goTrimSuffixStr (goBase filePath) (goExt filePath)) =
              some ofn →
            ∃ ts, fs (goJoin (if cc.OutputPath ≠ "" then goJoin cfg.OutputDir cc.OutputPath
                      else cfg.OutputDir) ofn) = some ts ∧ t ≤ ts := by
  unfold needProcess
  cases hfp : fs filePath with
  | none => simp
  | some t =>
    constructor
    · intro hall
      refine ⟨t, rfl, ?_⟩
      intro format hf cc hcc hen ofn hofn
      have hP := (List.any_eq_false.mp hall) format hf
      cases hout : fs (goJoin (if cc.OutputPath ≠ "" then goJoin cfg.OutputDir cc.OutputPath
          else cfg.OutputDir) ofn) with
      | none =>
        exfalso
        rw [hcc] at hP
        rw [ite_not] at hout
        simp [hen, hofn, hout] at hP
      | some ts =>
        rw [hcc] at hP
        rw [ite_not] at hout
        simp [hen, hofn, hout] at hP
        exact ⟨ts, rfl, by omega⟩
    · rintro ⟨t', ht', hforall⟩
      obtain rfl : t' = t := by
        rw [Option.some_inj] at ht'
        exact ht'.symm
      refine List.any_eq_false.mpr ?_
      intro format hf
      cases hcc : getConverterConfig cfg format with
      | none => simp [hcc]
      | some cc =>
        by_cases hen : cc.Enabled
        · cases hofn : artifactName format
              (goTrimSuffixStr (goBase filePath) (goExt filePath)) with
          | none => simp [hcc, hen, hofn]
          | some ofn =>
            obtain ⟨ts, hts, htle⟩ := hforall format hf cc hcc hen ofn hofn
            rw [ite_not] at hts
            simp [hcc, hen, hofn, hts]
            omega
        · simp [hcc, hen]

end GameDataBuilder

